import Mathlib

/-
Shallow embedding of the authenticated scraping client in
src/utils/RoomInfo.py (class RoomInfo) of the UESTC-Energyfy repository,
together with theorems settling the frozen claims about the Redirect
Walker (follow_redirects), the Login Orchestrator (login) and the Batch
Query Client (get).

Modelling conventions:
- HTTP responses are pure values (status code plus a header association
  list with case-normalized header names); the network is a pure function
  from URL to response, so one server behavior is one such function.
- Exceptions raised by the Python code are explicit constructors of the
  result types.
- Python str.split, str.join and str.startswith are re-implemented on
  character lists so that every definition evaluates inside the kernel.
- JSON values are modelled by the inductive JVal (null, integers,
  strings, objects as association lists); Python dict lookup with a
  default is Option.getD.
-/

namespace RoomInfo

/-- Base URL constant of the SSO portal, from RoomInfo.init:
BASE_URL = https idas.uestc.edu.cn. Prefixing of Location values that
begin with a slash uses this constant. -/
def BASE_URL : String := "https://idas.uestc.edu.cn"

/-- Fallback salt literal from line 172 of src/utils/RoomInfo.py. -/
def fallbackSalt : String := "rjBFAaHsNkKAhpoi"

/-! JSON values and dictionaries (for the Batch Query Client) -/

/-- JSON values as returned by response.json() restricted to the shapes
the queryRoomInfo endpoint produces: null, integers, strings and objects
(association lists, first occurrence of a key wins on lookup). -/
inductive JVal where
  | jnull
  | jint (n : Int)
  | jstr (s : String)
  | jobj (fields : List (String × JVal))

/-- Lookup in a JSON object or Python dict, returning none when the key
is absent: the model of pythondict.get(key). -/
def dictGet (fields : List (String × JVal)) (k : String) : Option JVal :=
  (fields.find? (fun kv => kv.1 == k)).map (fun kv => kv.2)

/-- One entry of the JSON response array of the queryRoomInfo endpoint.
The source reads item.get with key roomInfo and default of an empty
dict; the field is none when the key is absent. -/
structure RespItem where
  roomInfo : Option (List (String × JVal))

/-- Test modelling the Python comparison of room_info.get with key
retcode against the integer 0: true exactly when the retcode field is
present and is the integer zero. -/
def isRetZero : Option JVal → Bool
  | some (JVal.jint n) => n == 0
  | _ => false

/-- Body of the per-pair loop of RoomInfo.get (lines 261 to 269 of
src/utils/RoomInfo.py): read roomInfo with default empty dict, emit the
pair of the identifier with the roomInfo object on retcode 0 and with
none otherwise. Input identifiers are taken as strings, so the source
conversion str(query) is the identity. -/
def processItem (query : String) (item : RespItem) :
    String × Option (List (String × JVal)) :=
  if isRetZero (dictGet (item.roomInfo.getD []) ("retcode")) then
    (query, some (item.roomInfo.getD []))
  else (query, none)

/-- Response processing of RoomInfo.get (lines 258 to 271 of
src/utils/RoomInfo.py): the source iterates with zip over the input
identifiers and the parsed response array and appends one pair per
zipped element. -/
def get (queries : List String) (response_list : List RespItem) :
    List (String × Option (List (String × JVal))) :=
  (queries.zip response_list).map (fun p => processItem p.1 p.2)

/-! Strings: Python split, join and startswith on character lists -/

/-- Python str.split with a one-character separator, on character
lists: always returns a nonempty list, with empty pieces kept. -/
def splitChar (c : Char) : List Char → List (List Char)
  | [] => [[]]
  | x :: xs =>
    let r := splitChar c xs
    if x = c then [] :: r
    else (x :: r.headD []) :: r.tail

/-- Python join with a slash separator, on character lists. -/
def joinSlashChars : List (List Char) → List Char
  | [] => []
  | [x] => x
  | x :: y :: t => x ++ ('/') :: joinSlashChars (y :: t)

/-- Boolean prefix test on character lists. -/
def isPrefixChars : List Char → List Char → Bool
  | [], _ => true
  | _ :: _, [] => false
  | x :: xs, y :: ys => x == y && isPrefixChars xs ys

/-- Python str.startswith, re-implemented so it evaluates in the
kernel. -/
def pyStartswith (s pre : String) : Bool := isPrefixChars pre.data s.data

/-! Redirect Walker (RoomInfo.follow_redirects) -/

/-- HTTP response as seen by the client: status code and headers as an
association list. Header names are taken as already case-normalized
(the requests library exposes a case-insensitive header dictionary). -/
structure Response where
  status : Nat
  headers : List (String × String)
deriving DecidableEq

/-- Lookup of a header by name, the model of the containment test and
indexing on response.headers. -/
def headerGet (hs : List (String × String)) (k : String) : Option String :=
  (hs.find? (fun kv => kv.1 == k)).map (fun kv => kv.2)

/-- Redirect status codes from line 111 of src/utils/RoomInfo.py. -/
def redirectCodes : List Nat := [301, 302, 303, 307, 308]

/-- One entry of the redirect_history list built by follow_redirects
(lines 103 to 108 of src/utils/RoomInfo.py): the requested URL, the
status and the headers of its response. The cookie-jar snapshot the
source also stores lives in mutable session state outside this pure
model and is not inspected by any claim. -/
structure Hop where
  url : String
  status : Nat
  headers : List (String × String)
deriving DecidableEq

/-- History entry recorded for the request to a given URL. -/
def mkHop (net : String → Response) (u : String) : Hop :=
  ⟨u, (net u).status, (net u).headers⟩

/-- History entries recorded along a list of requested URLs. -/
def mkHops (net : String → Response) (us : List String) : List Hop :=
  us.map (mkHop net)

/-- Location resolution of follow_redirects (lines 114 to 124 of
src/utils/RoomInfo.py): a Location that starts with http passes
through, one that starts with a slash is prefixed with BASE_URL, and
any other value is appended after a slash to the first three
slash-separated pieces of the current URL. -/
def resolveLocation (base_const current_url location : String) : String :=
  if pyStartswith location ("http") then location
  else if pyStartswith location ("/") then base_const ++ location
  else
    let base_url : String := ⟨joinSlashChars ((splitChar ('/') current_url.data).take 3)⟩
    base_url ++ ("/") ++ location

/-- Outcome of follow_redirects: the returned pair of final response
and history, or one of the three RuntimeError exits (too many
redirects, a redirect response without Location, a failed request --
the raise_for_status call turns statuses 400 to 599 into this). -/
inductive RedirectResult where
  | ok (resp : Response) (history : List Hop)
  | tooMany
  | missingLocation
  | requestError
deriving DecidableEq

/-- Loop of follow_redirects (lines 96 to 135 of src/utils/RoomInfo.py).
The while loop guarded by redirect_count < max_redirects with the
counter incremented once per redirect response is embedded with the
fuel max_redirects - redirect_count, which makes the recursion
structural; fuel zero is the exit that raises the too-many-redirects
RuntimeError. Each received response is appended to the history before
the status is inspected. -/
def followLoop (net : String → Response) (base_const : String) :
    Nat → String → List Hop → RedirectResult
  | 0, _, _ => RedirectResult.tooMany
  | fuel + 1, current_url, history =>
    let response := net current_url
    if 400 ≤ response.status ∧ response.status < 600 then RedirectResult.requestError
    else
      let history := history ++ [mkHop net current_url]
      if response.status ∈ redirectCodes then
        match headerGet response.headers ("Location") with
        | some location =>
          followLoop net base_const fuel
            (resolveLocation base_const current_url location) history
        | none => RedirectResult.missingLocation
      else RedirectResult.ok response history

/-- Entry point of follow_redirects: start with an empty history and a
redirect count of zero, with the source default of 10 for
max_redirects. -/
def follow_redirects (net : String → Response) (base_const start_url : String)
    (max_redirects : Nat := 10) : RedirectResult :=
  followLoop net base_const max_redirects start_url []

/-- Relation stating that the response served for u is a redirect whose
Location header resolves (against u) to v. -/
def redirectsTo (net : String → Response) (base_const : String) (u v : String) : Prop :=
  (net u).status ∈ redirectCodes ∧
  ∃ loc, headerGet (net u).headers ("Location") = some loc ∧
    resolveLocation base_const u loc = v

/-- Terminal response of a redirect chain: a status that is neither a
redirect code nor an error status raised by raise_for_status. -/
def isTerminalResp (r : Response) : Prop :=
  r.status ∉ redirectCodes ∧ r.status < 400

/-- Redirect chain served by net along a list of URLs: every URL except
the last redirects to its successor and the last URL answers with a
terminal response. -/
def isChain (net : String → Response) (base_const : String) : List String → Prop
  | [] => False
  | [u] => isTerminalResp (net u)
  | u :: v :: rest => redirectsTo net base_const u v ∧ isChain net base_const (v :: rest)

/-- Linked redirect prefix: every URL except the last redirects to its
successor; nothing is assumed about the response of the last URL. -/
def chainLinks (net : String → Response) (base_const : String) : List String → Prop
  | [] => True
  | [_] => True
  | u :: v :: rest => redirectsTo net base_const u v ∧ chainLinks net base_const (v :: rest)

/-- Concrete two-hop server used in counterexamples: the start URL
answers with a 302 pointing at the end URL and every other URL answers
with a plain 200. -/
def net1 : String → Response := fun u =>
  if u = ("https://a/start") then ⟨302, [(("Location"), ("https://a/end"))]⟩
  else ⟨200, []⟩

/-! Login Orchestrator (RoomInfo.login) -/

/-- Outcome of the credential-submission POST handling in RoomInfo.login
(lines 200 to 215 of src/utils/RoomInfo.py): raise_for_status first
turns statuses 400 to 599 into a requests exception that the source
wraps as the generic RuntimeError for a failed login request
(transportError); then a status outside the redirect tuple raises the
RuntimeError carrying the status code (authFailed); then a redirect
without Location raises missingLocationHeader; otherwise the walker is
entered with the Location value. -/
inductive LoginOutcome where
  | redirect (location : String)
  | missingLocationHeader
  | authFailed (status : Nat)
  | transportError (status : Nat)
deriving DecidableEq

/-- Classification of the response to the credential POST, in the exact
order of the source checks (lines 204 to 214 of src/utils/RoomInfo.py). -/
def classifyLoginResponse (resp : Response) : LoginOutcome :=
  if 400 ≤ resp.status ∧ resp.status < 600 then LoginOutcome.transportError resp.status
  else if resp.status ∉ redirectCodes then LoginOutcome.authFailed resp.status
  else
    match headerGet resp.headers ("Location") with
    | some loc => LoginOutcome.redirect loc
    | none => LoginOutcome.missingLocationHeader

/-! Login page inputs: salt extraction and payload construction -/

/-- HTML input tag as the source reads it through BeautifulSoup: the
four attributes the login flow inspects, each possibly absent. -/
structure InputTag where
  type : Option String
  id : Option String
  name : Option String
  value : Option String
deriving DecidableEq

/-- Model of soup.find on input tags filtered by the id attribute: the
first input whose id equals the given string, regardless of its type
attribute. -/
def findInputById (page : List InputTag) (idv : String) : Option InputTag :=
  page.find? (fun t => t.id == some idv)

/-- Salt extraction of RoomInfo.login (lines 171 to 172 of
src/utils/RoomInfo.py): when an input with id pwdEncryptSalt is found
the salt is its value attribute (none when the attribute is absent,
modelling the Python None); when no such input exists the salt is the
fallback literal. The returned option is the value passed to the
encryption adapter. -/
def extractSalt (page : List InputTag) : Option String :=
  match findInputById page ("pwdEncryptSalt") with
  | some salt_input => salt_input.value
  | none => some ("rjBFAaHsNkKAhpoi")

/-- Model of soup.select for input tags with type hidden (line 193 of
src/utils/RoomInfo.py); the type attribute value is taken as already
lower-cased. -/
def hiddenInputs (page : List InputTag) : List InputTag :=
  page.filter (fun t => t.type == some ("hidden"))

/-- Seed payload dict of RoomInfo.login (lines 181 to 190 of
src/utils/RoomInfo.py), as an association list in insertion order. -/
def basePayload (username encrypted_pwd execution : String) : List (String × String) :=
  [(("username"), username), (("password"), encrypted_pwd), (("captcha"), ("")),
   (("_eventId"), ("submit")), (("cllt"), ("userNameLogin")),
   (("dllt"), ("generalLogin")), (("lt"), ("")), (("execution"), execution)]

/-- Keys of a payload association list, the model of the containment
test name not in payload. -/
def payloadKeys (p : List (String × String)) : List String := p.map Prod.fst

/-- Lookup in a payload dict built as an association list; keys are
unique by construction so first match is dict lookup. -/
def payloadGet (p : List (String × String)) (k : String) : Option String :=
  (p.find? (fun kv => kv.1 == k)).map (fun kv => kv.2)

/-- Body of the hidden-field loop of RoomInfo.login (lines 193 to 196
of src/utils/RoomInfo.py): read the name attribute; skip the input when
the name is absent or empty (the source guard tests Python truthiness
of the name) or already a payload key; otherwise append the key with
the value attribute, defaulting to the empty string. -/
def addHidden (payload : List (String × String)) (inp : InputTag) : List (String × String) :=
  match inp.name with
  | none => payload
  | some n =>
    if n = ("") then payload
    else if n ∈ payloadKeys payload then payload
    else payload ++ [(n, inp.value.getD (""))]

/-- Payload construction of RoomInfo.login (lines 181 to 196 of
src/utils/RoomInfo.py): the seed dict followed by the hidden-field
loop. -/
def buildPayload (username encrypted_pwd execution : String) (page : List InputTag) :
    List (String × String) :=
  (hiddenInputs page).foldl addHidden (basePayload username encrypted_pwd execution)

/-! Concrete pages and responses used by counterexamples and witnesses -/

/-- Page holding a single non-hidden input that carries the salt id:
used against the claim that the fallback is keyed on hidden inputs. -/
def saltTextPage : List InputTag :=
  [⟨some ("text"), some ("pwdEncryptSalt"), none, some ("S")⟩]

/-- Page holding a hidden salt input without a value attribute. -/
def saltNoValuePage : List InputTag :=
  [⟨some ("hidden"), some ("pwdEncryptSalt"), none, none⟩]

/-- Page with two hidden inputs sharing a name and one hidden input
that collides with a seeded payload key. -/
def dupNamePage : List InputTag :=
  [⟨some ("hidden"), none, some ("crypto"), some ("AAA")⟩,
   ⟨some ("hidden"), none, some ("crypto"), some ("BBB")⟩,
   ⟨some ("hidden"), none, some ("username"), some ("CCC")⟩]

/-- Response object with retcode 0. -/
def okObj : List (String × JVal) := [(("retcode"), JVal.jint 0)]

/-- Response object with retcode 1. -/
def failObj : List (String × JVal) := [(("retcode"), JVal.jint 1), (("msg"), JVal.jstr ("no"))]

/-- Response array with retcodes 0, 1, 0 for the three-identifier
example of the spec. -/
def respABC : List RespItem := [⟨some okObj⟩, ⟨some failObj⟩, ⟨some okObj⟩]

/-! Helper lemmas -/

/-- First component of a processed pair is always the identifier. -/
theorem processItem_fst (q : String) (it : RespItem) : (processItem q it).1 = q := by
  unfold processItem
  split <;> rfl



/-- Indexing a zipped list where both components are present. -/
theorem zip_getElem?_some {α β : Type} :
    ∀ (l : List α) (m : List β) (i : Nat) {a : α} {b : β},
      l[i]? = some a → m[i]? = some b → (l.zip m)[i]? = some (a, b) := by
  intro l
  induction l with
  | nil => intro m i a b ha _; simp at ha
  | cons x xs ih =>
    intro m i a b ha hb
    cases m with
    | nil => simp at hb
    | cons y ys =>
      cases i with
      | zero =>
        simp only [List.getElem?_cons_zero, Option.some.injEq] at ha hb
        simp [List.zip_cons_cons, ha, hb]
      | succ j =>
        simpa using ih ys j (by simpa using ha) (by simpa using hb)

/-- Zipping ignores the part of the right list beyond the length of the
left list. -/
theorem zip_take_len_right {α β : Type} :
    ∀ (l : List α) (m : List β), l.zip (m.take l.length) = l.zip m := by
  intro l
  induction l with
  | nil => intro m; simp
  | cons x xs ih =>
    intro m
    cases m with
    | nil => simp
    | cons y ys => simp [List.zip_cons_cons, ih]

/-- Zipping ignores the part of the left list beyond the length of the
right list. -/
theorem zip_take_len_left {α β : Type} :
    ∀ (l : List α) (m : List β), (l.take m.length).zip m = l.zip m := by
  intro l
  induction l with
  | nil => intro m; simp
  | cons x xs ih =>
    intro m
    cases m with
    | nil => simp
    | cons y ys => simp [List.zip_cons_cons, ih]

/-- Redirect status codes are below 400, so raise_for_status never
fires on them. -/
theorem redirect_status_lt_400 {s : Nat} (h : s ∈ redirectCodes) : s < 400 := by
  simp only [redirectCodes, List.mem_cons, List.not_mem_nil, or_false] at h
  rcases h with h | h | h | h | h <;> omega

/-- Unfolding of the walker along a full redirect chain: with fuel
strictly larger than the number of redirects the walker returns the
terminal response with one history entry per requested URL; otherwise
it runs out of fuel and raises the too-many-redirects error. -/
theorem followLoop_chain (net : String → Response) (base_const : String) :
    ∀ (urls : List String) (u : String) (fuel : Nat) (hist : List Hop),
      isChain net base_const (u :: urls) →
      followLoop net base_const fuel u hist =
        if urls.length < fuel then
          RedirectResult.ok (net ((u :: urls).getLast (List.cons_ne_nil u urls)))
            (hist ++ mkHops net (u :: urls))
        else RedirectResult.tooMany := by
  intro urls
  induction urls with
  | nil =>
    intro u fuel hist hch
    simp only [isChain, isTerminalResp] at hch
    obtain ⟨hnr, hlt⟩ := hch
    cases fuel with
    | zero => simp [followLoop]
    | succ f =>
      simp only [followLoop]
      rw [if_neg (by omega : ¬(400 ≤ (net u).status ∧ (net u).status < 600))]
      rw [if_neg hnr]
      simp [mkHops, mkHop]
  | cons v rest ih =>
    intro u fuel hist hch
    simp only [isChain, redirectsTo] at hch
    obtain ⟨⟨hcode, loc, hloc, hres⟩, hch2⟩ := hch
    cases fuel with
    | zero => simp [followLoop]
    | succ f =>
      have hlt400 : (net u).status < 400 := redirect_status_lt_400 hcode
      simp only [followLoop]
      rw [if_neg (by omega : ¬(400 ≤ (net u).status ∧ (net u).status < 600))]
      rw [if_pos hcode, hloc]
      simp only []
      rw [hres]
      rw [ih v f (hist ++ [mkHop net u]) hch2]
      by_cases hc : rest.length < f
      · rw [if_pos hc, if_pos (by simpa using Nat.succ_lt_succ hc)]
        have hlast : (v :: rest).getLast (List.cons_ne_nil v rest) =
            (u :: v :: rest).getLast (List.cons_ne_nil u (v :: rest)) :=
          (List.getLast_cons (List.cons_ne_nil v rest)).symm
        rw [hlast]
        simp [mkHops, List.append_assoc]
      · rw [if_neg hc, if_neg (by simp only [List.length_cons]; omega : ¬((v :: rest).length < f + 1))]

/-- Unfolding of the walker along a linked redirect sequence that is at
least as long as the fuel: the fuel runs out and the walker raises the
too-many-redirects error; the response of the last URL of the sequence
is never inspected. -/
theorem followLoop_links_tooMany (net : String → Response) (base_const : String) :
    ∀ (urls : List String) (u : String) (hist : List Hop) (fuel : Nat),
      chainLinks net base_const (u :: urls) → fuel ≤ urls.length →
      followLoop net base_const fuel u hist = RedirectResult.tooMany := by
  intro urls
  induction urls with
  | nil =>
    intro u hist fuel _ hf
    have hz : fuel = 0 := by simp only [List.length_nil, Nat.le_zero] at hf; exact hf
    subst hz
    simp [followLoop]
  | cons v rest ih =>
    intro u hist fuel hch hf
    simp only [chainLinks, redirectsTo] at hch
    obtain ⟨⟨hcode, loc, hloc, hres⟩, hch2⟩ := hch
    cases fuel with
    | zero => simp [followLoop]
    | succ f =>
      have hlt400 : (net u).status < 400 := redirect_status_lt_400 hcode
      simp only [followLoop]
      rw [if_neg (by omega : ¬(400 ≤ (net u).status ∧ (net u).status < 600))]
      rw [if_pos hcode, hloc]
      simp only []
      rw [hres]
      exact ih v (hist ++ [mkHop net u]) f hch2
        (by simp only [List.length_cons] at hf; omega)

/-! Claim theorems: Batch Query Client -/

/-- C1 counterexample: with one input identifier and an empty response
array, RoomInfo.get returns an empty list, so the output length differs
from the input length; the claim quantifies over every response array
and is false. -/
theorem get_length_mismatch_cex :
    ¬ ((RoomInfo.get (["A"]) ([] : List RespItem)).length = (["A"] : List String).length) := by
  decide

/-- C1 amended: whenever the response array has at least as many
entries as the input identifier list, the list returned by RoomInfo.get
has exactly as many entries as the input list and the entry at index i
carries the identifier at input index i. -/
theorem get_aligned_of_enough (queries : List String) (resp : List RespItem)
    (h : queries.length ≤ resp.length) :
    (RoomInfo.get queries resp).length = queries.length ∧
    ∀ i, i < queries.length →
      ((RoomInfo.get queries resp)[i]?).map Prod.fst = queries[i]? := by
  constructor
  · simp only [RoomInfo.get, List.length_map, List.length_zip]
    omega
  · intro i hi
    have hq : queries[i]? = some (queries.get ⟨i, hi⟩) := List.getElem?_eq_getElem hi
    have hir : i < resp.length := lt_of_lt_of_le hi h
    have hr : resp[i]? = some (resp.get ⟨i, hir⟩) := List.getElem?_eq_getElem hir
    have hz := zip_getElem?_some queries resp i hq hr
    simp only [RoomInfo.get, List.getElem?_map, hz, Option.map_some']
    simp [processItem_fst, hq]

/-- C1 witness: a concrete instance of the amended claim with one
identifier and one response entry. -/
theorem get_aligned_of_enough_witness :
    (RoomInfo.get (["A"]) [(⟨some okObj⟩ : RespItem)]).length = 1 ∧
    ((RoomInfo.get (["A"]) [(⟨some okObj⟩ : RespItem)])[0]?).map Prod.fst = some ("A") := by
  have h := get_aligned_of_enough (["A"]) [(⟨some okObj⟩ : RespItem)] (by decide)
  exact ⟨h.1, (h.2 0 (by decide)).trans rfl⟩

/-- C5: for input lists of equal length, the entry of RoomInfo.get at
each index pairs the identifier at that index with the roomInfo object
of the response entry at the same index when its retcode field is the
integer zero, and with none for any other retcode value; the function
is total, so no entry raises and no entry affects the others. The first
conjunct ties the boolean retcode test to equality with the integer
zero. -/
theorem get_retcode_classification (queries : List String) (resp : List RespItem)
    (hlen : queries.length = resp.length) :
    (∀ v : Option JVal, isRetZero v = true ↔ v = some (JVal.jint 0)) ∧
    ∀ (i : Nat) (q : String) (it : RespItem), queries[i]? = some q → resp[i]? = some it →
      (RoomInfo.get queries resp)[i]? =
        some (q, if isRetZero (dictGet (it.roomInfo.getD []) ("retcode"))
                 then some (it.roomInfo.getD []) else none) := by
  constructor
  · intro v
    cases v with
    | none => simp [isRetZero]
    | some jv =>
      cases jv with
      | jnull => simp [isRetZero]
      | jint n => simp [isRetZero]
      | jstr s => simp [isRetZero]
      | jobj f => simp [isRetZero]
  · intro i q it hq hr
    have hz := zip_getElem?_some queries resp i hq hr
    simp only [RoomInfo.get, List.getElem?_map, hz, Option.map_some']
    by_cases h : isRetZero (dictGet (it.roomInfo.getD []) ("retcode")) = true
    · simp [processItem, h]
    · simp only [Bool.not_eq_true] at h
      simp [processItem, h]

/-- C5 witness: the spec example with identifiers A, B, C and retcodes
0, 1, 0; the middle entry is paired with none and keeps its position. -/
theorem get_retcode_classification_witness :
    (RoomInfo.get (["A", "B", "C"]) respABC)[1]? = some (("B"), none) := by
  have h := (get_retcode_classification (["A", "B", "C"]) respABC rfl).2 1 ("B")
    (⟨some failObj⟩ : RespItem) rfl rfl
  exact h.trans rfl

/-- C9: RoomInfo.get zips the input identifiers with the response
array: the output length is the minimum of the two lengths (a shorter
response array silently truncates the output, with no error raised),
and entries of either list beyond the length of the other are silently
ignored. -/
theorem get_zip_truncation (queries : List String) (resp : List RespItem) :
    (RoomInfo.get queries resp).length = min queries.length resp.length ∧
    RoomInfo.get queries resp = RoomInfo.get queries (resp.take queries.length) ∧
    RoomInfo.get queries resp = RoomInfo.get (queries.take resp.length) resp := by
  refine ⟨?_, ?_, ?_⟩
  · simp [RoomInfo.get, List.length_zip]
  · simp [RoomInfo.get, zip_take_len_right]
  · simp [RoomInfo.get, zip_take_len_left]

/-! Claim theorems: Redirect Walker -/

/-- C2 counterexample: a chain of one redirect (N equal to 1, below the
maximum of 10) ending in a 200 produces a recorded history of two
entries, the redirect and the terminal response, not N entries as
claimed. -/
theorem follow_redirects_terminal_recorded_cex :
    follow_redirects net1 BASE_URL ("https://a/start") 10 =
      RedirectResult.ok ⟨200, []⟩
        [⟨("https://a/start"), 302, [(("Location"), ("https://a/end"))]⟩,
         ⟨("https://a/end"), 200, []⟩] ∧
    ¬ ([(⟨("https://a/start"), 302, [(("Location"), ("https://a/end"))]⟩ : Hop),
        (⟨("https://a/end"), 200, []⟩ : Hop)].length = 1) := by
  exact ⟨by decide, by decide⟩

/-- C2 amended: for every redirect chain of N redirect responses (N
strictly below max_redirects) ending in a non-redirect response, the
walker returns the terminal response together with a recorded hop list
of exactly N plus one entries: one entry per redirect followed plus one
entry for the terminal response (the source appends to the history
before inspecting the status, so the terminal response is recorded
too). -/
theorem follow_redirects_chain_hops (net : String → Response) (base_const u : String)
    (urls : List String) (max_redirects : Nat)
    (hchain : isChain net base_const (u :: urls)) (hlt : urls.length < max_redirects) :
    follow_redirects net base_const u max_redirects =
      RedirectResult.ok (net ((u :: urls).getLast (List.cons_ne_nil u urls)))
        (mkHops net (u :: urls)) ∧
    (mkHops net (u :: urls)).length = urls.length + 1 := by
  constructor
  · have h := followLoop_chain net base_const urls u max_redirects [] hchain
    rw [if_pos hlt] at h
    simpa [follow_redirects] using h
  · simp [mkHops]

/-- C2 witness: the one-redirect chain of net1 with the default bound. -/
theorem follow_redirects_chain_hops_witness :
    follow_redirects net1 BASE_URL ("https://a/start") 10 =
      RedirectResult.ok (net1 ("https://a/end"))
        (mkHops net1 [("https://a/start"), ("https://a/end")]) ∧
    (mkHops net1 [("https://a/start"), ("https://a/end")]).length = 2 := by
  have hchain : isChain net1 BASE_URL [("https://a/start"), ("https://a/end")] := by
    refine ⟨⟨by decide, ("https://a/end"), by decide, by decide⟩, by decide, by decide⟩
  have h := follow_redirects_chain_hops net1 BASE_URL ("https://a/start")
    [("https://a/end")] 10 hchain (by decide)
  simpa using h

/-- C4 counterexample: with max_redirects equal to 1, a chain of
exactly one redirect response followed by a 200 does not succeed: the
walker raises the too-many-redirects error instead of returning the
terminal response. -/
theorem follow_redirects_exact_max_cex :
    net1 ("https://a/start") = ⟨302, [(("Location"), ("https://a/end"))]⟩ ∧
    (net1 ("https://a/end")).status = 200 ∧
    follow_redirects net1 BASE_URL ("https://a/start") 1 = RedirectResult.tooMany := by
  exact ⟨by decide, by decide, by decide⟩

/-- C4 amended: the walker fails with the too-many-redirects error if
and only if the redirect hop count reaches max_redirects: a chain of at
most max_redirects minus one redirect responses followed by a
non-redirect response succeeds and returns the terminal response, while
a linked sequence of at least max_redirects redirect responses makes
the walker fail after following max_redirects redirects, before the
response of the URL after the last followed redirect is consulted. -/
theorem follow_redirects_hop_bound (net : String → Response) (base_const u : String)
    (urls : List String) (max_redirects : Nat) :
    (isChain net base_const (u :: urls) → urls.length < max_redirects →
      follow_redirects net base_const u max_redirects =
        RedirectResult.ok (net ((u :: urls).getLast (List.cons_ne_nil u urls)))
          (mkHops net (u :: urls))) ∧
    (chainLinks net base_const (u :: urls) → max_redirects ≤ urls.length →
      follow_redirects net base_const u max_redirects = RedirectResult.tooMany) := by
  constructor
  · intro hch hlt
    have h := followLoop_chain net base_const urls u max_redirects [] hch
    rw [if_pos hlt] at h
    simpa [follow_redirects] using h
  · intro hl hle
    exact followLoop_links_tooMany net base_const urls u [] max_redirects hl hle

/-- C4 witness: the bound side of the amended claim at the concrete
one-redirect chain of net1 with max_redirects equal to 1. -/
theorem follow_redirects_hop_bound_witness :
    follow_redirects net1 BASE_URL ("https://a/start") 1 = RedirectResult.tooMany := by
  have hlinks : chainLinks net1 BASE_URL [("https://a/start"), ("https://a/end")] := by
    exact ⟨⟨by decide, ("https://a/end"), by decide, by decide⟩, trivial⟩
  exact (follow_redirects_hop_bound net1 BASE_URL ("https://a/start")
    [("https://a/end")] 1).2 hlinks (by decide)

/-- Splitting a separator-free list yields the list itself as the only
piece. -/
theorem splitChar_no_sep (c : Char) :
    ∀ (a : List Char), c ∉ a → splitChar c a = [a] := by
  intro a
  induction a with
  | nil => intro _; rfl
  | cons x xs ih =>
    intro h
    have hx : ¬ x = c := fun he => h (by simp [he])
    have hxs : c ∉ xs := fun hm => h (List.mem_cons_of_mem x hm)
    simp [splitChar, hx, ih hxs]

/-- Splitting at the first separator after a separator-free block
peels off that block as the first piece. -/
theorem splitChar_append (c : Char) :
    ∀ (a b : List Char), c ∉ a →
      splitChar c (a ++ c :: b) = a :: splitChar c b := by
  intro a
  induction a with
  | nil => intro b _; simp [splitChar]
  | cons x xs ih =>
    intro b h
    have hx : ¬ x = c := fun he => h (by simp [he])
    have hxs : c ∉ xs := fun hm => h (List.mem_cons_of_mem x hm)
    simp [splitChar, hx, ih b hxs]

/-- Appending two strings concatenates their character data. -/
theorem str_data_append (a b : String) : (a ++ b).data = a.data ++ b.data := rfl

/-- Strings with the same character data are equal. -/
theorem str_data_ext {a b : String} (h : a.data = b.data) : a = b :=
  congrArg String.mk h

/-! Claim theorem: Location resolution -/

/-- C6: Location resolution of the Redirect Walker: a Location starting
with http (every absolute URL) passes through unchanged; a Location
starting with a slash is prefixed with the base constant of the portal;
every other relative Location is appended, after a slash, to the
scheme, host and port of the current URL of the chain (its first three
slash-separated pieces) -- the start URL plays no role in the
resolution. -/
theorem resolveLocation_cases (base_const current_url location proto hostport rest : String)
    (hcur : current_url = proto ++ ("//") ++ hostport ++ ("/") ++ rest)
    (hp : ('/') ∉ proto.data) (hh : ('/') ∉ hostport.data) :
    (pyStartswith location ("http") = true →
      resolveLocation base_const current_url location = location) ∧
    (pyStartswith location ("http") = false → pyStartswith location ("/") = true →
      resolveLocation base_const current_url location = base_const ++ location) ∧
    (pyStartswith location ("http") = false → pyStartswith location ("/") = false →
      resolveLocation base_const current_url location =
        proto ++ ("//") ++ hostport ++ ("/") ++ location) := by
  refine ⟨?_, ?_, ?_⟩
  · intro h1
    simp [resolveLocation, h1]
  · intro h1 h2
    simp [resolveLocation, h1, h2]
  · intro h1 h2
    simp only [resolveLocation, h1, h2, Bool.false_eq_true, if_false]
    subst hcur
    have hdata : (proto ++ ("//") ++ hostport ++ ("/") ++ rest).data
        = proto.data ++ ('/') :: (('/') :: (hostport.data ++ ('/') :: rest.data)) := by
      simp only [str_data_append]
      simp [List.append_assoc]
    rw [hdata]
    rw [splitChar_append ('/') proto.data _ hp]
    have hsecond : splitChar ('/') (('/') :: (hostport.data ++ ('/') :: rest.data))
        = [] :: hostport.data :: splitChar ('/') rest.data := by
      have h0 := splitChar_append ('/') [] (hostport.data ++ ('/') :: rest.data) (by simp)
      simp only [List.nil_append] at h0
      rw [h0, splitChar_append ('/') hostport.data rest.data hh]
    rw [hsecond]
    apply str_data_ext
    simp only [List.take, joinSlashChars, str_data_append]
    simp [List.append_assoc]

/-- C6 witness: a relative Location without a leading slash resolved
against a current URL whose origin differs from the walker base
constant. -/
theorem resolveLocation_cases_witness :
    resolveLocation BASE_URL ("https://portal.uestc.edu.cn/p/q") ("a/b")
      = ("https://portal.uestc.edu.cn/a/b") := by
  have h := (resolveLocation_cases BASE_URL ("https://portal.uestc.edu.cn/p/q") ("a/b")
    ("https:") ("portal.uestc.edu.cn") ("p/q") rfl (by decide) (by decide)).2.2
    (by decide) (by decide)
  exact h.trans (by decide)

/-! Claim theorems: Login Orchestrator -/

/-- C3 counterexample: a 500 response to the credential POST is turned
into the generic failed-login-request RuntimeError by raise_for_status
(transportError), not into the RuntimeError carrying the status code
(authFailed), so the claim that a non-redirect status always yields the
authentication failure, including 4xx and 5xx, is false. -/
theorem classifyLogin_status500_cex :
    classifyLoginResponse ⟨500, []⟩ = LoginOutcome.transportError 500 ∧
    LoginOutcome.transportError 500 ≠ LoginOutcome.authFailed 500 := by
  exact ⟨rfl, by decide⟩

/-- C3 amended: a non-redirect response to the credential POST whose
status is below 400 (or at least 600, where raise_for_status stays
silent) yields the authentication-failed error carrying the status
code, while statuses 400 to 599 are raised by raise_for_status and
wrapped as the generic transport error. -/
theorem classifyLogin_nonredirect (resp : Response)
    (hnr : resp.status ∉ redirectCodes) :
    (resp.status < 400 ∨ 600 ≤ resp.status →
      classifyLoginResponse resp = LoginOutcome.authFailed resp.status) ∧
    (400 ≤ resp.status ∧ resp.status < 600 →
      classifyLoginResponse resp = LoginOutcome.transportError resp.status) := by
  constructor
  · intro h
    unfold classifyLoginResponse
    rw [if_neg (by omega), if_pos hnr]
  · intro h
    unfold classifyLoginResponse
    rw [if_pos h]

/-- C3 witness: a 200 response to the credential POST (the usual
wrong-credentials shape) yields the authentication-failed error. -/
theorem classifyLogin_nonredirect_witness :
    classifyLoginResponse ⟨200, []⟩ = LoginOutcome.authFailed 200 :=
  (classifyLogin_nonredirect ⟨200, []⟩ (by decide)).1 (Or.inl (by decide))

/-! Claim theorems: salt extraction -/

/-- C8 counterexample: a page whose only input carries the salt id but
has type text contains no hidden input with that id, yet the salt is
taken from that input instead of the fallback literal; the claim that
absence of a hidden salt input triggers the fallback is false. -/
theorem extractSalt_nonhidden_cex :
    hiddenInputs saltTextPage = [] ∧
    extractSalt saltTextPage = some ("S") ∧
    some ("S") ≠ some ("rjBFAaHsNkKAhpoi") := by
  exact ⟨by decide, by decide, by decide⟩

/-- C8 amended: for every login page on which no input of any type with
id pwdEncryptSalt is present, the salt handed to the encryption adapter
is the fixed default literal, on the normal non-error path (the source
locates the salt input by id alone, without restricting to hidden
inputs). -/
theorem extractSalt_fallback (page : List InputTag)
    (h : ∀ t ∈ page, t.id ≠ some ("pwdEncryptSalt")) :
    extractSalt page = some ("rjBFAaHsNkKAhpoi") := by
  have hf : findInputById page ("pwdEncryptSalt") = none := by
    apply List.find?_eq_none.mpr
    intro t ht
    simpa using h t ht
  simp [extractSalt, hf]

/-- C8 witness: the empty page has no salt input, so the fallback salt
is used. -/
theorem extractSalt_fallback_witness :
    extractSalt [] = some ("rjBFAaHsNkKAhpoi") :=
  extractSalt_fallback [] (by simp)

/-- C10: when the first input with id pwdEncryptSalt is present (here a
hidden one) but has no value attribute, the salt handed to the
encryption adapter is none (the Python None), not the fallback literal:
the fallback branch is taken only when no input with the id exists. -/
theorem extractSalt_value_missing (page : List InputTag) (tag : InputTag)
    (hfind : findInputById page ("pwdEncryptSalt") = some tag)
    (htype : tag.type = some ("hidden")) (hval : tag.value = none) :
    extractSalt page = none ∧
    extractSalt page ≠ some ("rjBFAaHsNkKAhpoi") := by
  have h1 : extractSalt page = none := by simp [extractSalt, hfind, hval]
  refine ⟨h1, ?_⟩
  rw [h1]
  simp

/-- C10 witness: the page whose only input is a hidden salt input
without a value attribute. -/
theorem extractSalt_value_missing_witness :
    extractSalt saltNoValuePage = none :=
  (extractSalt_value_missing saltNoValuePage
    ⟨some ("hidden"), some ("pwdEncryptSalt"), none, none⟩
    (by decide) rfl rfl).1

/-! Payload lemmas and claim theorem -/

/-- Payload lookup succeeds on a held key. -/
theorem find?_key_isSome (p : List (String × String)) (k : String)
    (h : k ∈ payloadKeys p) : (p.find? (fun kv => kv.1 == k)).isSome = true := by
  induction p with
  | nil => simp [payloadKeys] at h
  | cons hd tl ih =>
    by_cases hk : (hd.1 == k) = true
    · simp [List.find?_cons, hk]
    · have hmem : k ∈ payloadKeys tl := by
        simp only [payloadKeys, List.map_cons, List.mem_cons] at h
        rcases h with h | h
        · exact absurd (by simp [h] : (hd.1 == k) = true) hk
        · exact h
      simp [List.find?_cons, hk, ih hmem]

/-- Lookup in an appended payload: the left part wins when it holds the
key. -/
theorem payloadGet_append (p q : List (String × String)) (k : String) :
    payloadGet (p ++ q) k =
      if k ∈ payloadKeys p then payloadGet p k else payloadGet q k := by
  unfold payloadGet
  rw [List.find?_append]
  by_cases hm : k ∈ payloadKeys p
  · obtain ⟨v, hv⟩ := Option.isSome_iff_exists.mp (find?_key_isSome p k hm)
    rw [if_pos hm, hv]
    rfl
  · have hnone : p.find? (fun kv => kv.1 == k) = none := by
      apply List.find?_eq_none.mpr
      intro x hx hbx
      apply hm
      simp only [beq_iff_eq] at hbx
      exact hbx ▸ List.mem_map_of_mem Prod.fst hx
    rw [if_neg hm, hnone]
    rfl

/-- Lookup misses in a payload that does not hold the key. -/
theorem payloadGet_not_mem (p : List (String × String)) (k : String)
    (h : k ∉ payloadKeys p) : payloadGet p k = none := by
  induction p with
  | nil => rfl
  | cons hd tl ih =>
    simp only [payloadKeys, List.map_cons, List.mem_cons] at h
    push_neg at h
    have hk2 : ¬ (hd.1 == k) = true := by
      simp only [beq_iff_eq]
      exact fun he => h.1 he.symm
    simp only [payloadGet, List.find?_cons, hk2]
    simpa [payloadGet, payloadKeys] using ih (by simpa [payloadKeys] using h.2)

/-- Keys only grow under the hidden-field step. -/
theorem payloadKeys_addHidden (p : List (String × String)) (i : InputTag) (k : String)
    (h : k ∈ payloadKeys p) : k ∈ payloadKeys (addHidden p i) := by
  unfold addHidden
  cases i.name with
  | none => exact h
  | some n =>
    by_cases h0 : n = ("")
    · simp [h0, h]
    · by_cases hm : n ∈ payloadKeys p
      · simp [h0, hm, h]
      · simp only [h0, hm, if_false, if_neg]
        simp [payloadKeys] at h ⊢
        exact Or.inl h

/-- Lookup of a key the seed payload already holds is unchanged by the
hidden-field loop. -/
theorem foldl_addHidden_mem :
    ∀ (hs : List InputTag) (p : List (String × String)) (k : String),
      k ∈ payloadKeys p →
      payloadGet (hs.foldl addHidden p) k = payloadGet p k := by
  intro hs
  induction hs with
  | nil => intro p k _; rfl
  | cons i t ih =>
    intro p k hk
    have step : payloadGet (addHidden p i) k = payloadGet p k := by
      unfold addHidden
      cases i.name with
      | none => rfl
      | some n =>
        by_cases h0 : n = ("")
        · simp [h0]
        · by_cases hm : n ∈ payloadKeys p
          · simp [h0, hm]
          · simp only [h0, hm, if_false, if_neg]
            rw [payloadGet_append, if_pos hk]
    calc payloadGet ((i :: t).foldl addHidden p) k
        = payloadGet (t.foldl addHidden (addHidden p i)) k := rfl
      _ = payloadGet (addHidden p i) k := ih (addHidden p i) k (payloadKeys_addHidden p i k hk)
      _ = payloadGet p k := step

/-- Lookup of a fresh nonempty key after the hidden-field loop is the
value attribute of the first hidden input carrying that name, defaulted
to the empty string, and none when no hidden input carries it. -/
theorem foldl_addHidden_new :
    ∀ (hs : List InputTag) (p : List (String × String)) (k : String),
      k ∉ payloadKeys p → k ≠ ("") →
      payloadGet (hs.foldl addHidden p) k =
        (hs.find? (fun i => i.name == some k)).map (fun i => i.value.getD ("")) := by
  intro hs
  induction hs with
  | nil =>
    intro p k hk _
    simpa using payloadGet_not_mem p k hk
  | cons i t ih =>
    intro p k hk hne
    cases hni : i.name with
    | none =>
      have hstep : addHidden p i = p := by unfold addHidden; rw [hni]
      have hpred : ((fun i => i.name == some k) i) = false := by simp [hni]
      simp only [List.foldl_cons, hstep, List.find?_cons, hpred]
      exact ih p k hk hne
    | some n =>
      by_cases h0 : n = ("")
      · have hstep : addHidden p i = p := by unfold addHidden; rw [hni]; simp [h0]
        have hpred : ((fun i => i.name == some k) i) = false := by
          simp only [hni, beq_eq_false_iff_ne, ne_eq, Option.some.injEq]
          exact fun he => hne (he ▸ h0)
        simp only [List.foldl_cons, hstep, List.find?_cons, hpred]
        exact ih p k hk hne
      · by_cases hm : n ∈ payloadKeys p
        · have hstep : addHidden p i = p := by unfold addHidden; rw [hni]; simp [h0, hm]
          have hnk : ¬ n = k := fun he => hk (he ▸ hm)
          have hpred : ((fun i => i.name == some k) i) = false := by simp [hni, hnk]
          simp only [List.foldl_cons, hstep, List.find?_cons, hpred]
          exact ih p k hk hne
        · have hstep : addHidden p i = p ++ [(n, i.value.getD (""))] := by
            unfold addHidden; rw [hni]; simp [h0, hm]
          by_cases hnk : n = k
          · subst hnk
            have hpred : ((fun i => i.name == some n) i) = true := by simp [hni]
            simp only [List.foldl_cons, hstep, List.find?_cons, hpred]
            have hmem : n ∈ payloadKeys (p ++ [(n, i.value.getD (""))]) := by
              simp [payloadKeys]
            rw [foldl_addHidden_mem t _ n hmem]
            rw [payloadGet_append, if_neg hk]
            simp [payloadGet, List.find?_cons]
          · have hpred : ((fun i => i.name == some k) i) = false := by simp [hni, hnk]
            have hk2 : k ∉ payloadKeys (p ++ [(n, i.value.getD (""))]) := by
              simp only [payloadKeys, List.map_append, List.mem_append] at hk ⊢
              push_neg
              refine ⟨by simpa [payloadKeys] using hk, ?_⟩
              intro he
              simp only [List.map_cons, List.map_nil, List.mem_singleton] at he
              exact hnk he.symm
            simp only [List.foldl_cons, hstep, List.find?_cons, hpred]
            exact ih _ k hk2 hne

/-- C7: the payload built by the Login Orchestrator maps username to
the username, password to the ciphertext, the five fixed protocol
constants to their literals, execution to the extracted token, and
additionally one key per hidden input whose (nonempty) name is not
already a payload key, valued by the value attribute of its first
occurrence with the empty string as default; later occurrences of a
duplicate name are ignored. Inputs whose name attribute is absent or
empty are not form fields and contribute nothing (the source guard
tests the truthiness of the name). -/
theorem buildPayload_spec (username encrypted_pwd execution : String) (page : List InputTag) :
    payloadGet (buildPayload username encrypted_pwd execution page) ("username") = some username ∧
    payloadGet (buildPayload username encrypted_pwd execution page) ("password") = some encrypted_pwd ∧
    payloadGet (buildPayload username encrypted_pwd execution page) ("captcha") = some ("") ∧
    payloadGet (buildPayload username encrypted_pwd execution page) ("_eventId") = some ("submit") ∧
    payloadGet (buildPayload username encrypted_pwd execution page) ("cllt") = some ("userNameLogin") ∧
    payloadGet (buildPayload username encrypted_pwd execution page) ("dllt") = some ("generalLogin") ∧
    payloadGet (buildPayload username encrypted_pwd execution page) ("lt") = some ("") ∧
    payloadGet (buildPayload username encrypted_pwd execution page) ("execution") = some execution ∧
    ∀ k : String, k ∉ payloadKeys (basePayload username encrypted_pwd execution) → k ≠ ("") →
      payloadGet (buildPayload username encrypted_pwd execution page) k =
        ((hiddenInputs page).find? (fun i => i.name == some k)).map
          (fun i => i.value.getD ("")) := by
  have base := basePayload username encrypted_pwd execution
  refine ⟨?_, ?_, ?_, ?_, ?_, ?_, ?_, ?_, ?_⟩
  · exact (foldl_addHidden_mem (hiddenInputs page) _ ("username")
      (by simp [basePayload, payloadKeys])).trans rfl
  · exact (foldl_addHidden_mem (hiddenInputs page) _ ("password")
      (by simp [basePayload, payloadKeys])).trans rfl
  · exact (foldl_addHidden_mem (hiddenInputs page) _ ("captcha")
      (by simp [basePayload, payloadKeys])).trans rfl
  · exact (foldl_addHidden_mem (hiddenInputs page) _ ("_eventId")
      (by simp [basePayload, payloadKeys])).trans rfl
  · exact (foldl_addHidden_mem (hiddenInputs page) _ ("cllt")
      (by simp [basePayload, payloadKeys])).trans rfl
  · exact (foldl_addHidden_mem (hiddenInputs page) _ ("dllt")
      (by simp [basePayload, payloadKeys])).trans rfl
  · exact (foldl_addHidden_mem (hiddenInputs page) _ ("lt")
      (by simp [basePayload, payloadKeys])).trans rfl
  · exact (foldl_addHidden_mem (hiddenInputs page) _ ("execution")
      (by simp [basePayload, payloadKeys])).trans rfl
  · intro k hk hne
    exact foldl_addHidden_new (hiddenInputs page) _ k hk hne

/-- C7 witness: on a page with two hidden inputs named crypto and one
hidden input colliding with the seeded username key, the payload keeps
the seeded username value and maps crypto to the value of the first
occurrence. -/
theorem buildPayload_spec_witness :
    payloadGet (buildPayload ("u") ("pw") ("ex") dupNamePage) ("crypto") = some ("AAA") ∧
    payloadGet (buildPayload ("u") ("pw") ("ex") dupNamePage) ("username") = some ("u") := by
  have h := buildPayload_spec ("u") ("pw") ("ex") dupNamePage
  refine ⟨?_, h.1⟩
  have h9 := h.2.2.2.2.2.2.2.2 ("crypto") (by decide) (by decide)
  exact h9.trans (by rfl)

end RoomInfo
